import Mathlib

/-!
Verification development for the RelationService identity-aggregation core.

The definitions below are a shallow embedding of the relevant Rust source:
timestamps become `Int` (second-precision Unix time, exactly what the query
surface exposes), the current wall clock (`naive_now`) becomes an explicit
`now : Int` parameter, fallible operations return `Except Error _`, the graph
store is passed explicitly (as a list of edges, an attribute row, or a
response oracle), and detached `tokio::spawn` background jobs become an
explicit list of step sequences returned next to the response value.
-/

namespace RelationService

/-- Platforms used by the query layer (src/src/controller, src/src/tigergraph). -/
inductive Platform where
  | twitter
  | ethereum
  | ens
  | lens
  | dotbit
  | unstoppableDomains
  | farcaster
  | spaceId
  | crossbell
  | sns
  | solana
  | genome
  | nextid
  | unknown
deriving DecidableEq, Repr

/-- Data sources (origin of a claim), as referenced by the embedded code. -/
inductive DataSource where
  | sybilList
  | rss3
  | theGraph
  | knn3
  | ethLeaderboard
  | unknown
deriving DecidableEq, Repr

/-- Data fetchers (which adapter extracted a claim). -/
inductive DataFetcher where
  | relationService
  | aggregationService
  | dataMgrService
deriving DecidableEq, Repr

/-- Domain name systems (src/src/graph/edge/resolve.rs). -/
inductive DomainNameSystem where
  | ens
  | dotbit
  | lens
  | unstoppableDomains
  | spaceId
  | unknown
deriving DecidableEq, Repr

/-- Chains (only Ethereum is used by the embedded query layer). -/
inductive Chain where
  | ethereum
deriving DecidableEq, Repr

/-- Contract categories. -/
inductive ContractCategory where
  | ens
  | erc721
  | erc1155
  | poap
deriving DecidableEq, Repr

/-- Modelled from the spec: the string form of `Platform` (its Display impl is
not under src). Lowercase snake case with `ENS` and `SNS` keeping original
casing, per the enum-stability section of the spec. Only used to build the
composite primary key string. -/
def platformToString : Platform → String
  | .twitter => "twitter"
  | .ethereum => "ethereum"
  | .ens => "ENS"
  | .lens => "lens"
  | .dotbit => "dotbit"
  | .unstoppableDomains => "unstoppabledomains"
  | .farcaster => "farcaster"
  | .spaceId => "space_id"
  | .crossbell => "crossbell"
  | .sns => "SNS"
  | .solana => "solana"
  | .genome => "genome"
  | .nextid => "nextid"
  | .unknown => "unknown"

/-- Modelled from the spec: the ENS registry contract address returned by
`ContractCategory::ENS.default_contract_address()` (contract.rs is not under
src). The exact string value is immaterial to every claim. -/
def ensDefaultContractAddress : String := "0x57f1887a8bf19b14fc0df6fd9b2acc9af147ea85"

/-- Default contract address per category, `some` only for ENS. -/
def ContractCategory.default_contract_address : ContractCategory → Option String
  | .ens => some ensDefaultContractAddress
  | _ => none

/-- Identity vertex attributes (src/src/tigergraph/vertex/identity.rs).
Timestamps are second-precision Unix integers; `uuid` is abstracted to a
natural number. -/
structure Identity where
  uuid : Option Nat
  platform : Platform
  identity : String
  uid : Option String
  display_name : Option String
  profile_url : Option String
  avatar_url : Option String
  created_at : Option Int
  added_at : Int
  updated_at : Int
deriving DecidableEq, Repr

/-- Composite primary key of an Identity vertex
(src/src/tigergraph/vertex/identity.rs, `primary_key`). -/
def Identity.primary_key (i : Identity) : String :=
  platformToString i.platform ++ "," ++ i.identity

/-- Freshness rule for Identity (src/src/tigergraph/vertex/identity.rs,
`is_outdated`): the record is outdated when `updated_at` plus one hour
(3600 seconds) is strictly before `now`. -/
def Identity.is_outdated (i : Identity) (now : Int) : Bool :=
  i.updated_at + 3600 < now

/-- Resolve edge attributes (src/src/graph/edge/resolve.rs). -/
structure Resolve where
  uuid : Nat
  source : DataSource
  system : DomainNameSystem
  name : String
  fetcher : DataFetcher
  updated_at : Int
deriving DecidableEq, Repr

/-- Freshness rule for Resolve (src/src/graph/edge/resolve.rs, `is_outdated`):
the record is outdated when `updated_at` plus one day (86400 seconds) is
strictly before `now`. -/
def Resolve.is_outdated (r : Resolve) (now : Int) : Bool :=
  r.updated_at + 86400 < now

/-- Error taxonomy (src/src/error/mod.rs), restricted to the variants the
embedded query layer constructs or propagates. -/
inductive Error where
  | general (msg : String)
  | paramError (msg : String)
  | noResult
  | graphQLError (msg : String)
  | poolError (msg : String)
  | manualHttpClientError (msg : String)
deriving DecidableEq, Repr

/-- A vertex record as returned by the TigerGraph store: a typed id plus
Identity attributes (src/src/tigergraph/vertex/identity.rs, `VertexRecord`). -/
structure IdentityRecord where
  v_type : String
  v_id : String
  attributes : Identity
deriving DecidableEq, Repr

/-- The record delegates freshness to its attributes (Deref in the source). -/
def IdentityRecord.is_outdated (r : IdentityRecord) (now : Int) : Bool :=
  r.attributes.is_outdated now

/-- Status of a record as exposed to GraphQL clients
(src/src/controller/tigergraphql/identity.rs, `DataStatus`). -/
inductive DataStatus where
  | cached
  | outdated
  | fetching
deriving DecidableEq, Repr

/-- Status projection (src/src/controller/tigergraphql/identity.rs,
`IdentityRecord::status`): push `cached` when the record has a stored id,
additionally `outdated` when stale; push `fetching` only when the id is
empty. -/
def IdentityRecord.status (r : IdentityRecord) (now : Int) : List DataStatus :=
  if r.v_id ≠ "" then
    if r.is_outdated now then [.cached, .outdated] else [.cached]
  else
    [.fetching]

/-- A neighbor item: identity plus the union of sources along paths reaching
it, plus the reverse flag surfaced by the traversal
(src/src/tigergraph/vertex/identity.rs, `IdentityWithSource`). -/
structure IdentityWithSource where
  identity : IdentityRecord
  sources : List DataSource
  reverse : Option Bool
deriving DecidableEq, Repr

/-- One result group of the neighbors traversal response
(src/src/tigergraph/vertex/identity.rs, `VertexWithSource`). -/
structure VertexWithSource where
  vertices : List IdentityWithSource
deriving DecidableEq, Repr

/-- Reverse-flag encoding used on the traversal request
(src/src/tigergraph/vertex/identity.rs, `neighbors`): `none` maps to 0,
`some true` to 1, `some false` to 2. -/
def reverseFlag : Option Bool → Nat
  | none => 0
  | some true => 1
  | some false => 2

/-- Neighbors traversal (src/src/tigergraph/vertex/identity.rs,
`IdentityRecord::neighbors`), embedded over a store oracle mapping the
request parameters (depth, reverse flag) to the parsed response. The result
takes the first response group, defaulting to the empty list, and filters
out every vertex whose id equals the origin id. -/
def IdentityRecord.neighbors (self : IdentityRecord) (depth : Nat)
    (reverse : Option Bool) (oracle : Nat → Nat → Option (List VertexWithSource)) :
    List IdentityWithSource :=
  let results := oracle depth (reverseFlag reverse)
  ((results.bind List.head?).map
      (fun result => result.vertices.filter
        (fun target => target.identity.v_id != self.v_id))).getD []

/-- Hold edge record placeholder: only its presence in result lists matters to
the embedded claims (src/src/tigergraph/edge, `HoldRecord`). -/
structure HoldRecord where
  uuid : Nat
  id : String
deriving DecidableEq, Repr

/-- NFT listing (src/src/tigergraph/vertex/identity.rs,
`IdentityRecord::nfts`): on a non-Ethereum identity return the empty list
before touching the store; otherwise issue the store query (embedded as an
oracle) with the given category filter, limit and offset. The second
component records whether the store was queried. -/
def IdentityRecord.nfts (self : IdentityRecord)
    (category : Option (List ContractCategory)) (limit offset : Nat)
    (oracle : Option (List ContractCategory) → Nat → Nat → Except Error (List HoldRecord)) :
    Except Error (List HoldRecord) × Bool :=
  if self.attributes.platform ≠ .ethereum then
    (.ok [], false)
  else
    (oracle category limit offset, true)

/-- Ownable-domain platform set (src/src/controller/tigergraphql/identity.rs,
`owned_by` guard list). -/
def ownableDomainSet : List Platform :=
  [.lens, .dotbit, .unstoppableDomains, .farcaster, .spaceId, .crossbell,
   .ens, .sns, .genome]

/-- Owned-by projection (src/src/controller/tigergraphql/identity.rs,
`IdentityRecord::owned_by`): return `none` without consulting the batch
loader when the platform is outside the ownable-domain set; otherwise consult
the loader. The second component records whether the loader was consulted. -/
def IdentityRecord.owned_by (self : IdentityRecord)
    (loader : String → Except Error (Option IdentityRecord)) :
    Except Error (Option IdentityRecord) × Bool :=
  if self.attributes.platform ∉ ownableDomainSet then
    (.ok none, false)
  else
    (loader self.v_id, true)

/-- Owned-by projection of the legacy controller
(src/src/controller/graphql/identity.rs, `IdentityRecord::owned_by`): only a
Lens identity consults the store. -/
def IdentityRecord.owned_by_legacy (self : IdentityRecord)
    (lens_owner : String → Except Error (Option IdentityRecord)) :
    Except Error (Option IdentityRecord) × Bool :=
  if self.attributes.platform ≠ .lens then
    (.ok none, false)
  else
    (lens_owner self.v_id, true)

/-- TigerGraph Resolve edge attributes, including the stored reverse flag
(the tigergraph edge module referenced by
src/src/tigergraph/vertex/identity.rs). -/
structure TgResolve where
  uuid : Nat
  source : DataSource
  system : DomainNameSystem
  name : String
  fetcher : DataFetcher
  updated_at : Int
  reverse : Bool
deriving DecidableEq, Repr

/-- A stored Resolve edge record of the reverse-domains response
(src/src/tigergraph/vertex/identity.rs, `ReverseRecords`). -/
structure ResolveRecord where
  e_id : String
  attributes : TgResolve
deriving DecidableEq, Repr

/-- One result group of the reverse-domains traversal response. -/
structure ReverseRecords where
  reverse_records : List ResolveRecord
deriving DecidableEq, Repr

/-- The projected reverse record handed to GraphQL clients
(tigergraph edge module, `ResolveReverse`). -/
structure ResolveReverse where
  uuid : Nat
  source : DataSource
  system : DomainNameSystem
  name : String
  fetcher : DataFetcher
  updated_at : Int
  reverse : Bool
deriving DecidableEq, Repr

/-- Modelled from the spec: the conversion `ResolveReverse::from` lives in the
tigergraph edge module, which is not under src; the reverse value it assigns
initially is therefore left as an explicit parameter, so the theorems hold
for every possible conversion behaviour. -/
def resolveReverseFrom (r : TgResolve) (initReverse : Bool) : ResolveReverse :=
  { uuid := r.uuid, source := r.source, system := r.system, name := r.name,
    fetcher := r.fetcher, updated_at := r.updated_at, reverse := initReverse }

/-- Reverse-domains projection (src/src/tigergraph/vertex/identity.rs,
`IdentityRecord::resolve_reverse_domains`): take the first response group,
convert every stored record to a `ResolveReverse`, and overwrite its reverse
field with `true`. The conversion is parametrized by the initial reverse
value it would assign (see `resolveReverseFrom`). -/
def resolveReverseDomainsProcess (results : Option (List ReverseRecords))
    (initR : TgResolve → Bool) : List ResolveReverse :=
  ((results.bind List.head?).map
      (fun result => result.reverse_records.map
        (fun record =>
          let resolve_reverse := resolveReverseFrom record.attributes (initR record.attributes)
          { resolve_reverse with reverse := true }))).getD []

/-- A fetch target (src/src/upstream, `Target`): either an identity on a
platform, or an NFT described by chain, category, contract address and
token id. -/
inductive Target where
  | identity (platform : Platform) (identity : String)
  | nft (chain : Chain) (category : ContractCategory) (address : String) (tokenId : String)
deriving DecidableEq, Repr

/-- Target construction of the top-level identity query
(src/src/controller/tigergraphql/identity.rs, `IdentityQuery::identity`):
ENS names are routed as an NFT target on the default ENS contract, every
other platform as an identity target. -/
def queryTarget (platform : Platform) (identity : String) : Target :=
  match platform with
  | .ens => .nft .ethereum .ens (ContractCategory.default_contract_address .ens).get! identity
  | _ => .identity platform identity

/-- One step of a detached background job spawned by the query layer. -/
inductive BackgroundStep where
  | sleepSecs (n : Nat)
  | deleteInner (vId : String)
  | runFetchAll (seeds : List Target) (depth : Option Nat)
deriving DecidableEq, Repr

/-- Top-level identity query (src/src/controller/tigergraphql/identity.rs,
`IdentityQuery::identity`), embedded over explicit store and fetch outcomes.
`lookup1` is the first `find_expand_identity` result, `fetchResult` the
outcome of the synchronous cold `fetch_all`, `lookup2` the re-read after it.
The first component is the value returned to the caller; the second is the
list of detached background jobs spawned (each a sequence of steps), which
the caller never waits on. On a found record the record is returned as-is;
when it is outdated a job of sleep 10 s, delete of the inner graph
connections of the vertex, then `fetch_all` on the corresponding target with
depth 3 is spawned. On a miss the cold fetch outcome is only logged and the
re-read result is returned. -/
def identityQuery (platform : Platform) (identity : String)
    (lookup1 : Except Error (Option IdentityRecord))
    (_fetchResult : Except Error Unit)
    (lookup2 : Except Error (Option IdentityRecord))
    (now : Int) :
    Except Error (Option IdentityRecord) × List (List BackgroundStep) :=
  match lookup1 with
  | .error e => (.error e, [])
  | .ok none => (lookup2, [])
  | .ok (some found) =>
      (.ok (some found),
       if found.is_outdated now then
         [[.sleepSecs 10, .deleteInner found.v_id,
           .runFetchAll [queryTarget platform identity] (some 3)]]
       else [])

/-- An ArangoDB identity record of the legacy graph layer: a document key
plus Identity attributes. -/
structure GraphIdentityRecord where
  key : String
  record : Identity
deriving DecidableEq, Repr

/-- Modelled from the spec: the legacy `Identity::is_outdated` lives in
graph/vertex/identity.rs, which is not under src; the spec fixes the
Identity TTL at 1 hour, matching the tigergraph implementation. -/
def GraphIdentityRecord.is_outdated (r : GraphIdentityRecord) (now : Int) : Bool :=
  r.record.is_outdated now

/-- Legacy top-level identity query (src/src/controller/graphql/identity.rs,
`IdentityQuery::identity`): on a miss the cold fetch result is discarded
(`let _ = fetch_all(target).await`) and the re-read result is returned; on an
outdated hit a plain background `fetch_all` on the target is spawned. -/
def identityQueryLegacy (platform : Platform) (identity : String)
    (lookup1 : Except Error (Option GraphIdentityRecord))
    (_fetchResult : Except Error Unit)
    (lookup2 : Except Error (Option GraphIdentityRecord))
    (now : Int) :
    Except Error (Option GraphIdentityRecord) × List (List BackgroundStep) :=
  match lookup1 with
  | .error e => (.error e, [])
  | .ok none => (lookup2, [])
  | .ok (some found) =>
      (.ok (some found),
       if found.is_outdated now then
         [[.runFetchAll [.identity platform identity] none]]
       else [])

/-- Legacy batch identities query (src/src/controller/graphql/identity.rs,
`IdentityQuery::identities`): when the first lookup returns no record, the
query runs a synchronous `fetch_all` per requested platform and propagates
the first failure to the caller before re-reading; on a non-empty result it
spawns a background refetch per outdated record and returns the records. -/
def runColdFetches : List Platform → (Platform → Except Error Unit) → Except Error Unit
  | [], _ => .ok ()
  | p :: rest, fetchFn =>
      match fetchFn p with
      | .error e => .error e
      | .ok _ => runColdFetches rest fetchFn

/-- See `runColdFetches`; this is the handler itself. -/
def identitiesQuery (platformList : List Platform) (_identity : String)
    (lookup1 : Except Error (List GraphIdentityRecord))
    (fetchFn : Platform → Except Error Unit)
    (lookup2 : Except Error (List GraphIdentityRecord))
    (now : Int) :
    Except Error (List GraphIdentityRecord) × List (List BackgroundStep) :=
  match lookup1 with
  | .error e => (.error e, [])
  | .ok records =>
      if records.length = 0 then
        match runColdFetches platformList fetchFn with
        | .error e => (.error e, [])
        | .ok _ => (lookup2, [])
      else
        (.ok records,
         (records.filter (fun r => r.is_outdated now)).map
           (fun r => [.runFetchAll [.identity r.record.platform r.record.identity] none]))

/-- A resolve edge joined with its resolved and owner identities
(src/src/graph/edge/resolve.rs, `ResolveEdge`). -/
structure ResolveEdge where
  record : Resolve
  resolved : Option GraphIdentityRecord
  owner : Option GraphIdentityRecord
deriving DecidableEq, Repr

/-- The edge delegates freshness to its Resolve record (Deref in the source). -/
def ResolveEdge.is_outdated (r : ResolveEdge) (now : Int) : Bool :=
  r.record.is_outdated now

/-- Target built by the ens query (src/src/controller/graphql/resolve.rs). -/
def ensTarget (name : String) : Target :=
  .nft .ethereum .ens (ContractCategory.default_contract_address .ens).get! name

/-- Top-level ens query (src/src/controller/graphql/resolve.rs,
`ResolveQuery::ens`): on a miss the synchronous `fetch_all` failure is
propagated to the caller before the re-read happens; on an outdated hit a
background refetch is spawned and the stale edge is returned. -/
def ensQuery (name : String)
    (lookup1 : Except Error (Option ResolveEdge))
    (fetchResult : Except Error Unit)
    (lookup2 : Except Error (Option ResolveEdge))
    (now : Int) :
    Except Error (Option ResolveEdge) × List (List BackgroundStep) :=
  match lookup1 with
  | .error e => (.error e, [])
  | .ok none =>
      match fetchResult with
      | .error e => (.error e, [])
      | .ok _ => (lookup2, [])
  | .ok (some resolve) =>
      (.ok (some resolve),
       if resolve.is_outdated now then [[.runFetchAll [ensTarget name] none]] else [])

/-- Top-level dotbit query (src/src/controller/graphql/resolve.rs,
`ResolveQuery::dotbit`): same shape as `ensQuery` with an identity target on
the Dotbit platform. -/
def dotbitQuery (name : String)
    (lookup1 : Except Error (Option ResolveEdge))
    (fetchResult : Except Error Unit)
    (lookup2 : Except Error (Option ResolveEdge))
    (now : Int) :
    Except Error (Option ResolveEdge) × List (List BackgroundStep) :=
  match lookup1 with
  | .error e => (.error e, [])
  | .ok none =>
      match fetchResult with
      | .error e => (.error e, [])
      | .ok _ => (lookup2, [])
  | .ok (some resolve) =>
      (.ok (some resolve),
       if resolve.is_outdated now then
         [[.runFetchAll [.identity .dotbit name] none]]
       else [])

/-- A stored Resolve edge row of the legacy edge collection: from id, to id,
and the Resolve attributes (`EdgeRecord` of src/src/graph/edge/resolve.rs). -/
structure ResolveEdgeRow where
  fromId : String
  toId : String
  attrs : Resolve
deriving DecidableEq, Repr

/-- The filter used by `Resolve::connect` (src/src/graph/edge/resolve.rs):
match on from id, to id, system and name (the source field is not part of
the filter). -/
def connectFilter (self : Resolve) (fromId toId : String) (e : ResolveEdgeRow) : Bool :=
  e.fromId == fromId && e.toId == toId
    && e.attrs.system == self.system && e.attrs.name == self.name

/-- Resolve edge upsert (src/src/graph/edge/resolve.rs, `Resolve::connect`):
query the store for edges matching the filter; when none matches, link a new
edge (appended to the store) and return it; otherwise return the first match
and leave the store unchanged. -/
def Resolve.connect (self : Resolve) (store : List ResolveEdgeRow)
    (fromId toId : String) : ResolveEdgeRow × List ResolveEdgeRow :=
  match store.filter (connectFilter self fromId toId) with
  | [] =>
      let linked : ResolveEdgeRow := ⟨fromId, toId, self⟩
      (linked, store ++ [linked])
  | e :: _ => (e, store)

/-- Per-attribute upsert operator (tigergraph module, `OpCode`): the two
operators the Identity attribute map uses. -/
inductive OpCode where
  | ignoreIfExists
  | max
deriving DecidableEq, Repr

/-- An attribute value: the payload kinds the Identity attribute map writes. -/
inductive AttrValue where
  | str (s : String)
  | int (n : Int)
  | platform (p : Platform)
  | uuidV (u : Nat)
deriving DecidableEq, Repr

/-- An attribute together with its optional operator hint
(tigergraph module, `Attribute`). -/
structure Attribute where
  value : AttrValue
  op : Option OpCode
deriving DecidableEq, Repr

/-- Attribute map built for an Identity vertex upsert
(src/src/tigergraph/vertex/identity.rs, `Transfer::to_attributes_map`):
id, uuid (when present), platform, identity, created_at (when present) carry
`ignoreIfExists`; updated_at carries `max`; uid, display_name, profile_url,
avatar_url (each when present) and added_at carry no operator (overwrite).
The HashMap of the source is embedded as an association list with pairwise
distinct keys, in insertion order. -/
def Identity.to_attributes_map (i : Identity) : List (String × Attribute) :=
  [("id", ⟨.str i.primary_key, some .ignoreIfExists⟩)]
  ++ (match i.uuid with
      | some u => [("uuid", ⟨.uuidV u, some .ignoreIfExists⟩)]
      | none => [])
  ++ [("platform", ⟨.platform i.platform, some .ignoreIfExists⟩),
      ("identity", ⟨.str i.identity, some .ignoreIfExists⟩)]
  ++ (match i.uid with
      | some u => [("uid", ⟨.str u, none⟩)]
      | none => [])
  ++ (match i.display_name with
      | some d => [("display_name", ⟨.str d, none⟩)]
      | none => [])
  ++ (match i.profile_url with
      | some p => [("profile_url", ⟨.str p, none⟩)]
      | none => [])
  ++ (match i.avatar_url with
      | some a => [("avatar_url", ⟨.str a, none⟩)]
      | none => [])
  ++ (match i.created_at with
      | some c => [("created_at", ⟨.int c, some .ignoreIfExists⟩)]
      | none => [])
  ++ [("added_at", ⟨.int i.added_at, none⟩),
      ("updated_at", ⟨.int i.updated_at, some .max⟩)]

/-- Maximum of two attribute values, defined on integer payloads (the only
payload the `max` operator is applied to). -/
def valueMax : AttrValue → AttrValue → AttrValue
  | .int a, .int b => .int (Max.max a b)
  | _, b => b

/-- Modelled from the spec: the per-attribute operator semantics the graph
store must honor on upsert (spec section 4.1; the store itself is external):
`ignoreIfExists` keeps an existing value (write-once), `max` takes the
maximum of old and new (monotone), no operator overwrites. -/
def applyOp : Option OpCode → Option AttrValue → AttrValue → AttrValue
  | some .ignoreIfExists, old, newValue => old.getD newValue
  | some .max, some old, newValue => valueMax old newValue
  | some .max, none, newValue => newValue
  | none, _, newValue => newValue

/-- A stored row: a partial map from attribute name to value. -/
def Row : Type := String → Option AttrValue

/-- The row in which no attribute is set yet. -/
def emptyRow : Row := fun _ => none

/-- Apply one attribute write to a row under its operator. -/
def updateRow (row : Row) (key : String) (a : Attribute) : Row :=
  fun k => if k = key then some (applyOp a.op (row key) a.value) else row k

/-- Apply a whole attribute map to a row, in order (keys are pairwise
distinct, so the order is immaterial, matching HashMap semantics). -/
def upsertRow : Row → List (String × Attribute) → Row
  | row, [] => row
  | row, (key, a) :: rest => upsertRow (updateRow row key a) rest

/-- Upsert one Identity into a row through its attribute map. -/
def upsertIdentity (row : Row) (i : Identity) : Row :=
  upsertRow row i.to_attributes_map

/-- A concrete Ethereum identity used by witnesses. -/
def sampleIdentity : Identity :=
  { uuid := some 7, platform := .ethereum, identity := "0xabc", uid := none,
    display_name := none, profile_url := none, avatar_url := none,
    created_at := some 5, added_at := 0, updated_at := 0 }

/-- A concrete stored Ethereum record used by witnesses. -/
def sampleRecord : IdentityRecord :=
  { v_type := "Identities", v_id := "ethereum,0xabc", attributes := sampleIdentity }

/-- A concrete Lens record used by witnesses. -/
def sampleLensRecord : IdentityRecord :=
  { v_type := "Identities", v_id := "lens,stani.lens",
    attributes := { sampleIdentity with platform := .lens, identity := "stani.lens" } }

/-- A concrete Twitter record used by witnesses. -/
def sampleTwitterRecord : IdentityRecord :=
  { v_type := "Identities", v_id := "twitter,alice",
    attributes := { sampleIdentity with platform := .twitter, identity := "alice" } }

/-- A concrete Resolve edge used by witnesses. -/
def sampleResolve : Resolve :=
  { uuid := 11, source := .theGraph, system := .ens, name := "vitalik.eth",
    fetcher := .relationService, updated_at := 0 }

end RelationService

namespace RelationService

/-- C2: for every Identity record, `is_outdated` is true exactly when more
than 1 hour (3600 s) has elapsed since `updated_at`; for every Resolve record,
`is_outdated` is true exactly when more than 1 day (86400 s) has elapsed. -/
theorem is_outdated_iff_ttl_elapsed (i : Identity) (r : Resolve) (now : Int) :
    (i.is_outdated now = true ↔ now - i.updated_at > 3600)
    ∧ (r.is_outdated now = true ↔ now - r.updated_at > 86400) := by
  constructor
  · simp [Identity.is_outdated]
    omega
  · simp [Resolve.is_outdated]
    omega

/-- C7: the status projection returns exactly `[cached]` for a fresh stored
record, `[cached, outdated]` for a stale stored record, `[fetching]` when the
record carries no stored id, and `fetching` appears only in that last case. -/
theorem status_projection_cases (r : IdentityRecord) (now : Int) :
    (r.v_id ≠ "" → r.is_outdated now = false → r.status now = [.cached])
    ∧ (r.v_id ≠ "" → r.is_outdated now = true → r.status now = [.cached, .outdated])
    ∧ (r.v_id = "" → r.status now = [.fetching])
    ∧ (DataStatus.fetching ∈ r.status now → r.v_id = "") := by
  by_cases h : r.v_id = "" <;> by_cases h2 : r.is_outdated now = true <;>
    simp [IdentityRecord.status, h, h2]

/-- Witness for C7 at a concrete fresh record. -/
theorem status_projection_cases_witness :
    sampleRecord.v_id ≠ "" ∧ sampleRecord.is_outdated 10 = false
      ∧ sampleRecord.status 10 = [.cached] :=
  ⟨by decide, by decide, (status_projection_cases sampleRecord 10).1 (by decide) (by decide)⟩

/-- C9: on a non-Ethereum identity the nfts operation returns the empty list
for every category, limit and offset, without issuing any store query. -/
theorem nfts_non_ethereum_empty (r : IdentityRecord)
    (category : Option (List ContractCategory)) (limit offset : Nat)
    (oracle : Option (List ContractCategory) → Nat → Nat → Except Error (List HoldRecord))
    (h : r.attributes.platform ≠ .ethereum) :
    r.nfts category limit offset oracle = (.ok [], false) := by
  simp [IdentityRecord.nfts, h]

/-- Witness for C9 at a concrete Lens record with a failing store oracle. -/
theorem nfts_non_ethereum_empty_witness :
    sampleLensRecord.attributes.platform ≠ .ethereum
      ∧ sampleLensRecord.nfts none 100 0 (fun _ _ _ => .error .noResult) = (.ok [], false) :=
  ⟨by decide,
   nfts_non_ethereum_empty sampleLensRecord none 100 0 (fun _ _ _ => .error .noResult)
     (by decide)⟩

/-- C8: outside the ownable-domain set, both owned-by projections return
`none` without consulting the store, and a non-null owner can only be
produced for a platform inside the set. -/
theorem owned_by_requires_ownable_platform (r : IdentityRecord)
    (loader lens_owner : String → Except Error (Option IdentityRecord)) :
    (r.attributes.platform ∉ ownableDomainSet →
        r.owned_by loader = (.ok none, false)
          ∧ r.owned_by_legacy lens_owner = (.ok none, false))
    ∧ (∀ x, (r.owned_by loader).1 = .ok (some x) →
        r.attributes.platform ∈ ownableDomainSet) := by
  constructor
  · intro h
    have hlens : r.attributes.platform ≠ .lens := by
      intro hh
      exact h (by simp [ownableDomainSet, hh])
    simp [IdentityRecord.owned_by, IdentityRecord.owned_by_legacy, h, hlens]
  · intro x hx
    by_contra h
    simp [IdentityRecord.owned_by, h] at hx

/-- Witness for C8 at a concrete Twitter record. -/
theorem owned_by_requires_ownable_platform_witness :
    sampleTwitterRecord.attributes.platform ∉ ownableDomainSet
      ∧ sampleTwitterRecord.owned_by (fun _ => .ok none) = (.ok none, false)
      ∧ sampleTwitterRecord.owned_by_legacy (fun _ => .ok none) = (.ok none, false) :=
  ⟨by decide,
   ((owned_by_requires_ownable_platform sampleTwitterRecord
       (fun _ => .ok none) (fun _ => .ok none)).1 (by decide)).1,
   ((owned_by_requires_ownable_platform sampleTwitterRecord
       (fun _ => .ok none) (fun _ => .ok none)).1 (by decide)).2⟩

/-- C6: the neighbors traversal never returns the origin vertex: every
returned identity has a v_id different from the origin v_id, for every depth,
reverse flag and store response. -/
theorem neighbors_excludes_origin (self : IdentityRecord) (depth : Nat)
    (reverse : Option Bool) (oracle : Nat → Nat → Option (List VertexWithSource))
    (x : IdentityWithSource) (hx : x ∈ self.neighbors depth reverse oracle) :
    x.identity.v_id ≠ self.v_id := by
  unfold IdentityRecord.neighbors at hx
  rcases h : (oracle depth (reverseFlag reverse)).bind List.head? with _ | vws
  · simp [h] at hx
  · simp only [h, Option.map_some, Option.getD_some] at hx
    have h2 := (List.mem_filter.mp hx).2
    simpa using h2

/-- Witness for C6 at a concrete response holding one other vertex. -/
theorem neighbors_excludes_origin_witness :
    (⟨sampleLensRecord, [.theGraph], none⟩ : IdentityWithSource)
        ∈ sampleRecord.neighbors 2 (some true)
          (fun _ _ => some [⟨[⟨sampleLensRecord, [.theGraph], none⟩]⟩])
      ∧ sampleLensRecord.v_id ≠ sampleRecord.v_id :=
  ⟨by decide,
   neighbors_excludes_origin sampleRecord 2 (some true)
     (fun _ _ => some [⟨[⟨sampleLensRecord, [.theGraph], none⟩]⟩])
     ⟨sampleLensRecord, [.theGraph], none⟩ (by decide)⟩

/-- C10: every ResolveReverse produced by the reverse-domains projection has
its reverse field equal to true, whatever reverse value the stored record and
the conversion carry. -/
theorem reverse_records_always_reverse (results : Option (List ReverseRecords))
    (initR : TgResolve → Bool) (x : ResolveReverse)
    (hx : x ∈ resolveReverseDomainsProcess results initR) :
    x.reverse = true := by
  unfold resolveReverseDomainsProcess at hx
  rcases h : results.bind List.head? with _ | rr
  · simp [h] at hx
  · rw [h] at hx
    simp only [Option.map_some', Option.getD_some, List.mem_map] at hx
    obtain ⟨rec, -, hrec⟩ := hx
    rw [← hrec]

/-- Witness for C10 at a concrete stored record whose reverse flag is false. -/
theorem reverse_records_always_reverse_witness :
    (⟨11, .theGraph, .ens, "vitalik.eth", .relationService, 0, true⟩ : ResolveReverse)
        ∈ resolveReverseDomainsProcess
            (some [⟨[⟨"edge1", ⟨11, .theGraph, .ens, "vitalik.eth", .relationService, 0, false⟩⟩]⟩])
            (fun r => r.reverse)
      ∧ (⟨11, .theGraph, .ens, "vitalik.eth", .relationService, 0, true⟩ : ResolveReverse).reverse
          = true :=
  ⟨by decide,
   reverse_records_always_reverse
     (some [⟨[⟨"edge1", ⟨11, .theGraph, .ens, "vitalik.eth", .relationService, 0, false⟩⟩]⟩])
     (fun r => r.reverse)
     ⟨11, .theGraph, .ens, "vitalik.eth", .relationService, 0, true⟩ (by decide)⟩

/-- C1: when the top-level identity query finds a stored record, that record
is returned to the caller as-is, for every cold-fetch outcome and re-read
result (so no background step delays or alters the response); when the record
is outdated, exactly one detached job is spawned, consisting of sleep 10 s,
then deletion of the inner graph connections of the vertex, then `fetch_all`
on the corresponding target with depth 3, in that order; when it is fresh no
job is spawned. -/
theorem identity_query_stale_serves_immediately (platform : Platform)
    (identity : String) (found : IdentityRecord) (fetchResult : Except Error Unit)
    (lookup2 : Except Error (Option IdentityRecord)) (now : Int) :
    (identityQuery platform identity (.ok (some found)) fetchResult lookup2 now).1
        = .ok (some found)
    ∧ (found.is_outdated now = true →
        (identityQuery platform identity (.ok (some found)) fetchResult lookup2 now).2
          = [[.sleepSecs 10, .deleteInner found.v_id,
              .runFetchAll [queryTarget platform identity] (some 3)]])
    ∧ (found.is_outdated now = false →
        (identityQuery platform identity (.ok (some found)) fetchResult lookup2 now).2
          = []) := by
  refine ⟨rfl, ?_, ?_⟩ <;> intro h <;> simp [identityQuery, h]

/-- Witness for C1 at a concrete outdated record (updated 2 hours before
now), with a failing background environment. -/
theorem identity_query_stale_serves_immediately_witness :
    sampleRecord.is_outdated 7200 = true
    ∧ (identityQuery .ethereum "0xabc" (.ok (some sampleRecord))
          (.error .noResult) (.error .noResult) 7200).1 = .ok (some sampleRecord)
    ∧ (identityQuery .ethereum "0xabc" (.ok (some sampleRecord))
          (.error .noResult) (.error .noResult) 7200).2
        = [[.sleepSecs 10, .deleteInner sampleRecord.v_id,
            .runFetchAll [queryTarget .ethereum "0xabc"] (some 3)]] :=
  ⟨by decide,
   (identity_query_stale_serves_immediately .ethereum "0xabc" sampleRecord
       (.error .noResult) (.error .noResult) 7200).1,
   (identity_query_stale_serves_immediately .ethereum "0xabc" sampleRecord
       (.error .noResult) (.error .noResult) 7200).2.1 (by decide)⟩

/-- C4 counterexample: the ens query, on a store miss with a failing cold
fetch, returns the fetch error to the caller instead of re-reading the store,
contradicting the claim that no top-level read query surfaces the cold-fetch
failure. -/
theorem cold_fetch_error_propagated_counterexample :
    (ensQuery "abc.eth" (.ok none) (.error .noResult) (.ok none) 0).1
        = .error .noResult
    ∧ (ensQuery "abc.eth" (.ok none) (.error .noResult) (.ok none) 0).1
        ≠ .ok none := by
  constructor
  · rfl
  · intro h
    exact Except.noConfusion h

/-- C4 amended: for the two identity queries the cold-fetch failure is never
propagated: on a store miss they return the re-read result, whatever the
fetch outcome, and spawn no background job. -/
theorem identity_cold_fetch_error_not_propagated (platform : Platform)
    (identity : String) (fetchResult : Except Error Unit)
    (lookup2 : Except Error (Option IdentityRecord))
    (lookup2L : Except Error (Option GraphIdentityRecord)) (now : Int) :
    identityQuery platform identity (.ok none) fetchResult lookup2 now = (lookup2, [])
    ∧ identityQueryLegacy platform identity (.ok none) fetchResult lookup2L now
        = (lookup2L, []) :=
  ⟨rfl, rfl⟩

/-- C5: connecting a Resolve edge between the same endpoints with the same
source, system and name when such an edge already exists (and the store holds
no other edge matching the connect filter) returns that existing edge and
leaves the store unchanged, so no second edge is created. -/
theorem resolve_connect_idempotent (self : Resolve) (store : List ResolveEdgeRow)
    (fromId toId : String) (e₀ : ResolveEdgeRow)
    (hmem : e₀ ∈ store)
    (hfrom : e₀.fromId = fromId) (hto : e₀.toId = toId)
    (hsys : e₀.attrs.system = self.system) (hname : e₀.attrs.name = self.name)
    (_hsrc : e₀.attrs.source = self.source)
    (huniq : ∀ e ∈ store, connectFilter self fromId toId e = true → e = e₀) :
    self.connect store fromId toId = (e₀, store) := by
  have he₀ : connectFilter self fromId toId e₀ = true := by
    simp [connectFilter, hfrom, hto, hsys, hname]
  rcases hres : store.filter (connectFilter self fromId toId) with _ | ⟨e, rest⟩
  · exact absurd (List.mem_filter.mpr ⟨hmem, he₀⟩) (by simp [hres])
  · have hmem' : e ∈ store.filter (connectFilter self fromId toId) := by
      rw [hres]
      exact List.mem_cons_self e rest
    have he : e = e₀ :=
      huniq e (List.mem_of_mem_filter hmem') (List.of_mem_filter hmem')
    unfold Resolve.connect
    rw [hres, he]

/-- Witness for C5: a one-edge store already holding the edge being
connected. -/
theorem resolve_connect_idempotent_witness :
    sampleResolve.connect [⟨"Contracts/ens1", "Identities/eth1", sampleResolve⟩]
        "Contracts/ens1" "Identities/eth1"
      = (⟨"Contracts/ens1", "Identities/eth1", sampleResolve⟩,
         [⟨"Contracts/ens1", "Identities/eth1", sampleResolve⟩]) :=
  resolve_connect_idempotent sampleResolve
    [⟨"Contracts/ens1", "Identities/eth1", sampleResolve⟩]
    "Contracts/ens1" "Identities/eth1"
    ⟨"Contracts/ens1", "Identities/eth1", sampleResolve⟩
    (by decide) (by decide) (by decide) (by decide) (by decide) (by decide)
    (by decide)

/-- The attribute map always carries platform as write-once. -/
theorem lookup_platform_attr (i : Identity) :
    (i.to_attributes_map).lookup "platform"
      = some ⟨.platform i.platform, some .ignoreIfExists⟩ := by
  rcases i with ⟨uuid, p, idn, uid, dn, pu, au, ca, aa, ua⟩
  rcases uuid with _ | u <;> rfl

/-- The attribute map always carries identity as write-once. -/
theorem lookup_identity_attr (i : Identity) :
    (i.to_attributes_map).lookup "identity"
      = some ⟨.str i.identity, some .ignoreIfExists⟩ := by
  rcases i with ⟨uuid, p, idn, uid, dn, pu, au, ca, aa, ua⟩
  rcases uuid with _ | u <;> rfl

/-- The attribute map always carries updated_at under the max operator. -/
theorem lookup_updated_at_attr (i : Identity) :
    (i.to_attributes_map).lookup "updated_at"
      = some ⟨.int i.updated_at, some .max⟩ := by
  rcases i with ⟨uuid, p, idn, uid, dn, pu, au, ca, aa, ua⟩
  rcases uuid with _ | u <;> rcases uid with _ | u2 <;> rcases dn with _ | d <;>
    rcases pu with _ | pr <;> rcases au with _ | av <;> rcases ca with _ | c <;> rfl

/-- When a uuid is present it is written write-once. -/
theorem lookup_uuid_attr (i : Identity) (u : Nat) (h : i.uuid = some u) :
    (i.to_attributes_map).lookup "uuid" = some ⟨.uuidV u, some .ignoreIfExists⟩ := by
  rcases i with ⟨uuid, p, idn, uid, dn, pu, au, ca, aa, ua⟩
  cases h
  rfl

/-- When a creation time is present it is written write-once. -/
theorem lookup_created_at_attr (i : Identity) (c : Int) (h : i.created_at = some c) :
    (i.to_attributes_map).lookup "created_at" = some ⟨.int c, some .ignoreIfExists⟩ := by
  rcases i with ⟨uuid, p, idn, uid, dn, pu, au, ca, aa, ua⟩
  cases h
  rcases uuid with _ | u <;> rcases uid with _ | u2 <;> rcases dn with _ | d <;>
    rcases pu with _ | pr <;> rcases au with _ | av <;> rfl

/-- Upserting an Identity writes the platform cell write-once. -/
theorem upsert_platform_cell (row : Row) (i : Identity) :
    upsertIdentity row i "platform"
      = some ((row "platform").getD (.platform i.platform)) := by
  rcases i with ⟨uuid, p, idn, uid, dn, pu, au, ca, aa, ua⟩
  rcases uuid with _ | u <;> rcases uid with _ | u2 <;> rcases dn with _ | d <;>
    rcases pu with _ | pr <;> rcases au with _ | av <;> rcases ca with _ | c <;> rfl

/-- Upserting an Identity writes the identity cell write-once. -/
theorem upsert_identity_cell (row : Row) (i : Identity) :
    upsertIdentity row i "identity"
      = some ((row "identity").getD (.str i.identity)) := by
  rcases i with ⟨uuid, p, idn, uid, dn, pu, au, ca, aa, ua⟩
  rcases uuid with _ | u <;> rcases uid with _ | u2 <;> rcases dn with _ | d <;>
    rcases pu with _ | pr <;> rcases au with _ | av <;> rcases ca with _ | c <;> rfl

/-- Upserting an Identity writes the updated_at cell under max. -/
theorem upsert_updated_at_cell (row : Row) (i : Identity) :
    upsertIdentity row i "updated_at"
      = some (applyOp (some .max) (row "updated_at") (.int i.updated_at)) := by
  rcases i with ⟨uuid, p, idn, uid, dn, pu, au, ca, aa, ua⟩
  rcases uuid with _ | u <;> rcases uid with _ | u2 <;> rcases dn with _ | d <;>
    rcases pu with _ | pr <;> rcases au with _ | av <;> rcases ca with _ | c <;> rfl

/-- A platform value already stored survives any sequence of upserts. -/
theorem fold_keeps_platform (is : List Identity) :
    ∀ (row : Row) (v : AttrValue), row "platform" = some v →
      (is.foldl upsertIdentity row) "platform" = some v := by
  induction is with
  | nil => intro row v h; simpa using h
  | cons i rest ih =>
      intro row v h
      have h2 : (upsertIdentity row i) "platform" = some v := by
        rw [upsert_platform_cell, h]
        rfl
      simpa [List.foldl_cons] using ih (upsertIdentity row i) v h2

/-- An identity value already stored survives any sequence of upserts. -/
theorem fold_keeps_identity (is : List Identity) :
    ∀ (row : Row) (v : AttrValue), row "identity" = some v →
      (is.foldl upsertIdentity row) "identity" = some v := by
  induction is with
  | nil => intro row v h; simpa using h
  | cons i rest ih =>
      intro row v h
      have h2 : (upsertIdentity row i) "identity" = some v := by
        rw [upsert_identity_cell, h]
        rfl
      simpa [List.foldl_cons] using ih (upsertIdentity row i) v h2

/-- The stored updated_at accumulates the running maximum of written values. -/
theorem fold_updated_at_max (is : List Identity) :
    ∀ (row : Row) (m : Int), row "updated_at" = some (.int m) →
      (is.foldl upsertIdentity row) "updated_at"
        = some (.int (is.foldl (fun acc j => Max.max acc j.updated_at) m)) := by
  induction is with
  | nil => intro row m h; simpa using h
  | cons i rest ih =>
      intro row m h
      have h2 : (upsertIdentity row i) "updated_at"
          = some (.int (Max.max m i.updated_at)) := by
        rw [upsert_updated_at_cell, h]
        rfl
      simpa [List.foldl_cons] using ih (upsertIdentity row i) (Max.max m i.updated_at) h2

/-- C3: the Identity upsert attribute map marks uuid (when present),
platform, identity and created_at (when present) with the write-once operator
and updated_at with the max operator; consequently, across any sequence of
upserts starting from an empty row, the stored platform and identity stay
those of the first upsert and the stored updated_at equals the maximum of all
written values. -/
theorem identity_upsert_operator_semantics (i i₀ : Identity) (is : List Identity) :
    ((i.to_attributes_map).lookup "platform"
        = some ⟨.platform i.platform, some .ignoreIfExists⟩)
    ∧ ((i.to_attributes_map).lookup "identity"
        = some ⟨.str i.identity, some .ignoreIfExists⟩)
    ∧ ((i.to_attributes_map).lookup "updated_at"
        = some ⟨.int i.updated_at, some .max⟩)
    ∧ (∀ u, i.uuid = some u →
        (i.to_attributes_map).lookup "uuid" = some ⟨.uuidV u, some .ignoreIfExists⟩)
    ∧ (∀ c, i.created_at = some c →
        (i.to_attributes_map).lookup "created_at"
          = some ⟨.int c, some .ignoreIfExists⟩)
    ∧ (((i₀ :: is).foldl upsertIdentity emptyRow) "platform"
        = some (.platform i₀.platform))
    ∧ (((i₀ :: is).foldl upsertIdentity emptyRow) "identity"
        = some (.str i₀.identity))
    ∧ (((i₀ :: is).foldl upsertIdentity emptyRow) "updated_at"
        = some (.int (is.foldl (fun acc j => Max.max acc j.updated_at) i₀.updated_at))) := by
  refine ⟨lookup_platform_attr i, lookup_identity_attr i, lookup_updated_at_attr i,
    fun u h => lookup_uuid_attr i u h, fun c h => lookup_created_at_attr i c h,
    ?_, ?_, ?_⟩
  · rw [List.foldl_cons]
    exact fold_keeps_platform is (upsertIdentity emptyRow i₀) (.platform i₀.platform)
      (by rw [upsert_platform_cell]; rfl)
  · rw [List.foldl_cons]
    exact fold_keeps_identity is (upsertIdentity emptyRow i₀) (.str i₀.identity)
      (by rw [upsert_identity_cell]; rfl)
  · rw [List.foldl_cons]
    exact fold_updated_at_max is (upsertIdentity emptyRow i₀) i₀.updated_at
      (by rw [upsert_updated_at_cell]; rfl)

/-- Witness for C3 at a concrete identity with uuid and created_at present,
and a two-element upsert sequence. -/
theorem identity_upsert_operator_semantics_witness :
    sampleIdentity.uuid = some 7
    ∧ (sampleIdentity.to_attributes_map).lookup "uuid"
        = some ⟨.uuidV 7, some .ignoreIfExists⟩
    ∧ sampleIdentity.created_at = some 5
    ∧ (sampleIdentity.to_attributes_map).lookup "created_at"
        = some ⟨.int 5, some .ignoreIfExists⟩
    ∧ (([sampleIdentity, { sampleIdentity with updated_at := 99 }].foldl
          upsertIdentity emptyRow) "updated_at" = some (.int 99)) :=
  ⟨rfl,
   (identity_upsert_operator_semantics sampleIdentity sampleIdentity []).2.2.2.1 7 rfl,
   rfl,
   (identity_upsert_operator_semantics sampleIdentity sampleIdentity []).2.2.2.2.1 5 rfl,
   (identity_upsert_operator_semantics sampleIdentity sampleIdentity
      [{ sampleIdentity with updated_at := 99 }]).2.2.2.2.2.2.2⟩

end RelationService
